import Mathlib

/-
Verification development for the bilingual recipe catalog backend
(Django app: `core/models.py` and `recipe/serializers.py`).

The code is shallowly embedded: model rows become Lean structures, the
database becomes an explicit `Store` value threaded through operations,
Django exceptions become `Except` results paired with the store at the
point of failure, and the serializer methods become pure functions on
rows.  Decimal columns (`price_en`/`price_ar`, max_digits=5,
decimal_places=2) are modelled as scaled integers (`Option Int`);
nullable columns are `Option`s; `blank=True` text columns default to "".
-/

/-- Row of the `Tag` table (`core/models.py`, class `Tag`): a name plus
an owning user (foreign key).  The `Ingredient` model has the identical
shape (`core/models.py`, class `Ingredient`), so the same row type is
used for both tables, which the `Store` keeps separate. -/
structure NamedRow where
  id : Nat
  user : Nat
  name : String
deriving DecidableEq, Repr

/-- Row of the `Recipe` table (`core/models.py`, class `Recipe`): the
per-locale column pairs, the many-to-many association id sets and the
optional image path.  Defaults follow the model declaration: nullable
columns (`null=True, default=None`) are `none`, `blank=True` text
columns are `""`. -/
structure RecipeRow where
  id : Nat
  user : Nat
  title_en : Option String
  title_ar : Option String
  description_en : String
  description_ar : String
  time_minutes_en : Option Int
  time_minutes_ar : Option Int
  price_en : Option Int
  price_ar : Option Int
  link_en : String
  link_ar : String
  tags : List Nat
  ingredients : List Nat
  image : Option String
deriving DecidableEq, Repr

/-- Row of the user table (`core/models.py`, class `User`):
email, name, hashed password and the permission flags. -/
structure UserRow where
  email : String
  name : String
  password : String
  is_active : Bool
  is_staff : Bool
  is_superuser : Bool
deriving DecidableEq, Repr

/-- The persistent store: the tables the embedded operations touch, plus
auto-increment counters for primary keys. -/
structure Store where
  users : List Nat
  tags : List NamedRow
  ingredients : List NamedRow
  recipes : List RecipeRow
  next_tag_id : Nat
  next_ingredient_id : Nat
  next_recipe_id : Nat
deriving DecidableEq, Repr

/-! ### Locale projection (`recipe/serializers.py`)

Each serializer method field reads `self.context['request'].LANGUAGE_CODE`
and returns the `_ar` column when it equals `"ar"`, else the `_en`
column.  The request language is passed explicitly as `lang`; the
methods are pure reads, so they take the row and return the value. -/

/-- Embeds `RecipeSerializer.get_title`. -/
def get_title (lang : String) (obj : RecipeRow) : Option String :=
  if lang = "ar" then obj.title_ar else obj.title_en

/-- Embeds `RecipeSerializer.get_time_minutes`. -/
def get_time_minutes (lang : String) (obj : RecipeRow) : Option Int :=
  if lang = "ar" then obj.time_minutes_ar else obj.time_minutes_en

/-- Embeds `RecipeSerializer.get_price`. -/
def get_price (lang : String) (obj : RecipeRow) : Option Int :=
  if lang = "ar" then obj.price_ar else obj.price_en

/-- Embeds `RecipeSerializer.get_link`. -/
def get_link (lang : String) (obj : RecipeRow) : Option String :=
  if lang = "ar" then some obj.link_ar else some obj.link_en

/-- Embeds `RecipeDetailSerializer.get_description`. -/
def get_description (lang : String) (obj : RecipeRow) : String :=
  if lang = "ar" then obj.description_ar else obj.description_en

/-! ### Image path generation (`core/models.py`, `recipe_image_file_path`)

The source does `ext = os.path.splitext(filename)[1]` and then joins
`uploads/recipe/<uuid4><ext>`.  `os.path.splitext` (posixpath, sep `/`,
no altsep, extsep `.`) finds the last separator index and the last dot
index; the extension is the suffix from the last dot provided that dot
comes after the separator and at least one character strictly between
them is not a dot (leading dots of the basename never start an
extension).  The fresh `uuid.uuid4()` is passed explicitly as a string
(a canonical uuid4 rendering is 36 characters and contains no dot). -/

/-- Index of the last occurrence of `c` in the list, `-1` when absent —
the embedding of Python `str.rfind`. -/
def rfindChar : List Char → Char → Int
  | [], _ => -1
  | x :: xs, c =>
      let r := rfindChar xs c
      if 0 ≤ r then r + 1 else if x = c then 0 else -1

/-- Embeds the leading-dot scan of `genericpath._splitext`: Python walks
`filenameIndex` from `sepIndex + 1` up to `dotIndex` and keeps the
extension as soon as it sees a character that is not the extension
separator. -/
def hasNonDotBetween (p : List Char) (lo hi : Nat) : Bool :=
  (List.range hi).any (fun j => lo ≤ j && !(p.getD j '.' == '.'))

/-- Embeds `os.path.splitext` (posix flavour, as used on the server):
returns `(root, extension)`. -/
def splitext (p : List Char) : List Char × List Char :=
  let sepIndex := rfindChar p '/'
  let dotIndex := rfindChar p '.'
  if sepIndex < dotIndex ∧
     hasNonDotBetween p (sepIndex + 1).toNat dotIndex.toNat then
    (p.take dotIndex.toNat, p.drop dotIndex.toNat)
  else (p, [])

/-- Embeds `recipe_image_file_path`: extension of the uploaded filename
via `splitext`, new basename `f-string` of the uuid and the extension,
joined under `uploads/recipe/` (posix `os.path.join` of relative
components concatenates with `/`). -/
def recipe_image_file_path (uuid4 : String) (filename : String) : String :=
  let e := (splitext filename.toList).2
  let newName := uuid4 ++ String.mk e
  "uploads/recipe/" ++ newName

/-- The path formula asserted by claim C10, read off the claim text (not
the source): the suffix of the filename from its last dot onward, empty
when the filename has no dot. -/
def specLastDotSuffix (filename : String) : String :=
  let i := rfindChar filename.toList '.'
  if 0 ≤ i then String.mk (filename.toList.drop i.toNat) else ""

/-! ### Get-or-create association resolution (`recipe/serializers.py`)

`_get_and_create_tags` and `_get_and_create_ingredients` are identical
up to the table they touch, so they share one embedded function over a
table of `NamedRow`s with its id counter.  `get_or_create(user=…, name=…)`
looks the row up by the (user, name) pair and inserts a fresh row when
absent; `recipe.tags.add` inserts into the association set (a no-op when
the membership already exists). -/

/-- The lookup key of `get_or_create(user=…, name=…)`: the row's
(user, name) pair equals the given one. -/
def rowMatches (u : Nat) (n : String) (t : NamedRow) : Bool :=
  t.user == u && t.name == n

/-- Embeds `Tag.objects.get_or_create(user=…, name=…)` (and the
`Ingredient` twin): returns the found or created row, the table after,
and the id counter after. -/
def getOrCreate (table : List NamedRow) (nextId : Nat) (u : Nat) (n : String) :
    NamedRow × List NamedRow × Nat :=
  match table.find? (rowMatches u n) with
  | some t => (t, table, nextId)
  | none =>
      let row : NamedRow := ⟨nextId, u, n⟩
      (row, table ++ [row], nextId + 1)

/-- Embeds `recipe.tags.add(obj)` on the association id set: the
underlying association table is keyed by (recipe, tag), so adding an
existing membership changes nothing. -/
def m2mAdd (s : List Nat) (i : Nat) : List Nat :=
  if i ∈ s then s else s ++ [i]

/-- Embeds the loop body of `_get_and_create_tags` /
`_get_and_create_ingredients`: for each name in order, get-or-create the
row for the authenticated user and add it to the recipe's association
set.  Returns the association set, the table and the id counter after
the loop. -/
def get_and_create_assoc (u : Nat) (names : List String) (assoc : List Nat)
    (table : List NamedRow) (nextId : Nat) : List Nat × List NamedRow × Nat :=
  match names with
  | [] => (assoc, table, nextId)
  | n :: rest =>
      let g := getOrCreate table nextId u n
      get_and_create_assoc u rest (m2mAdd assoc g.1.id) g.2.1 g.2.2

/-- Number of rows of the table owned by `u` and named `n`. -/
def countNamed (table : List NamedRow) (u : Nat) (n : String) : Nat :=
  (table.filter (rowMatches u n)).length

/-- The table holds at most one row per (user, name) pair — the
invariant `get_or_create` maintains (the spec's per-(user, name)
uniqueness). -/
def UniqTable (table : List NamedRow) : Prop :=
  table.Pairwise (fun a b => a.user ≠ b.user ∨ a.name ≠ b.name)

/-! ### Scalar attribute loop (`RecipeSerializer.update`, lines 119-122)

`for attr, value in validated_data.items(): setattr(instance, attr, value)`
iterates the remaining payload items and overwrites the named column.
The items are embedded as a list of tagged column assignments. -/

/-- One `(attr, value)` item of `validated_data` naming a stored scalar
column of `Recipe`. -/
inductive AttrVal where
  | title_en (v : Option String)
  | title_ar (v : Option String)
  | description_en (v : String)
  | description_ar (v : String)
  | time_minutes_en (v : Option Int)
  | time_minutes_ar (v : Option Int)
  | price_en (v : Option Int)
  | price_ar (v : Option Int)
  | link_en (v : String)
  | link_ar (v : String)
  | image (v : Option String)
deriving DecidableEq, Repr

/-- Embeds one `setattr(instance, attr, value)` call. -/
def setattrRow (r : RecipeRow) : AttrVal → RecipeRow
  | .title_en v => { r with title_en := v }
  | .title_ar v => { r with title_ar := v }
  | .description_en v => { r with description_en := v }
  | .description_ar v => { r with description_ar := v }
  | .time_minutes_en v => { r with time_minutes_en := v }
  | .time_minutes_ar v => { r with time_minutes_ar := v }
  | .price_en v => { r with price_en := v }
  | .price_ar v => { r with price_ar := v }
  | .link_en v => { r with link_en := v }
  | .link_ar v => { r with link_ar := v }
  | .image v => { r with image := v }

/-- Embeds the whole `for attr, value in validated_data.items()` loop. -/
def applyScalars (r : RecipeRow) (items : List AttrVal) : RecipeRow :=
  items.foldl setattrRow r

/-- Selects the value an item assigns to `title_en`, if any. -/
def sel_title_en : AttrVal → Option (Option String)
  | .title_en v => some v
  | _ => none

/-- Selects the value an item assigns to `title_ar`, if any. -/
def sel_title_ar : AttrVal → Option (Option String)
  | .title_ar v => some v
  | _ => none

/-- Selects the value an item assigns to `description_en`, if any. -/
def sel_description_en : AttrVal → Option String
  | .description_en v => some v
  | _ => none

/-- Selects the value an item assigns to `description_ar`, if any. -/
def sel_description_ar : AttrVal → Option String
  | .description_ar v => some v
  | _ => none

/-- Selects the value an item assigns to `time_minutes_en`, if any. -/
def sel_time_minutes_en : AttrVal → Option (Option Int)
  | .time_minutes_en v => some v
  | _ => none

/-- Selects the value an item assigns to `time_minutes_ar`, if any. -/
def sel_time_minutes_ar : AttrVal → Option (Option Int)
  | .time_minutes_ar v => some v
  | _ => none

/-- Selects the value an item assigns to `price_en`, if any. -/
def sel_price_en : AttrVal → Option (Option Int)
  | .price_en v => some v
  | _ => none

/-- Selects the value an item assigns to `price_ar`, if any. -/
def sel_price_ar : AttrVal → Option (Option Int)
  | .price_ar v => some v
  | _ => none

/-- Selects the value an item assigns to `link_en`, if any. -/
def sel_link_en : AttrVal → Option String
  | .link_en v => some v
  | _ => none

/-- Selects the value an item assigns to `link_ar`, if any. -/
def sel_link_ar : AttrVal → Option String
  | .link_ar v => some v
  | _ => none

/-- Selects the value an item assigns to `image`, if any. -/
def sel_image : AttrVal → Option (Option String)
  | .image v => some v
  | _ => none

/-! ### Serializer write paths (`recipe/serializers.py`)

In `RecipeSerializer` the fields `title`, `time_minutes`, `price`,
`link` (and `description` in the detail serializer) are
`SerializerMethodField`s, hence read-only, and `id` is declared
read-only; so `validated_data` can only ever carry `tags`,
`ingredients` and `image`.  The payload types below encode exactly
that writable surface. -/

/-- The `validated_data` of a create call: nested tag/ingredient name
lists (default `[]` after `pop`) and the one writable scalar, `image`. -/
structure CreatePayload where
  tags : List String
  ingredients : List String
  image : Option String
deriving DecidableEq, Repr

/-- The `validated_data` of an update call: `pop(…, None)` distinguishes
an absent key (`none`) from a present list, and `image` is present or
absent in the remaining items. -/
structure UpdatePayload where
  tags : Option (List String)
  ingredients : Option (List String)
  image : Option (Option String)
deriving DecidableEq, Repr

/-- The `validated_data.items()` that remain for the `setattr` loop of
`update` after `tags` and `ingredients` were popped: just the `image`
item when present. -/
def updateItems (p : UpdatePayload) : List AttrVal :=
  match p.image with
  | none => []
  | some v => [AttrVal.image v]

/-- Embeds `Recipe.objects.create(**validated_data)`: a single `INSERT`.
The recipe references its user by foreign key, so the insert fails on a
constraint violation when the user row is absent; a failed insert
mutates nothing, so the store component of the error case is the input
store.  On success the new row carries the model defaults for every
column not in the payload. -/
def recipeObjectsCreate (store : Store) (u : Nat) (img : Option String) :
    Except String RecipeRow × Store :=
  if u ∈ store.users then
    let row : RecipeRow :=
      { id := store.next_recipe_id, user := u,
        title_en := none, title_ar := none,
        description_en := "", description_ar := "",
        time_minutes_en := none, time_minutes_ar := none,
        price_en := none, price_ar := none,
        link_en := "", link_ar := "",
        tags := [], ingredients := [], image := img }
    (Except.ok row,
     { store with recipes := store.recipes ++ [row],
                  next_recipe_id := store.next_recipe_id + 1 })
  else (Except.error "FOREIGN KEY constraint failed", store)

/-- Embeds `instance.save()`: overwrite the row with the same primary
key. -/
def saveRecipe (recipes : List RecipeRow) (r : RecipeRow) : List RecipeRow :=
  recipes.map (fun x => if x.id == r.id then r else x)

/-- Embeds `RecipeSerializer.create`: pop the nested lists, persist the
scalar recipe fields first, then resolve and attach tags and
ingredients.  An exception from the insert propagates before any
get-or-create runs, pairing the error with the store at the throw
point. -/
def serializer_create (u : Nat) (p : CreatePayload) (store : Store) :
    Except String RecipeRow × Store :=
  match recipeObjectsCreate store u p.image with
  | (Except.error e, s) => (Except.error e, s)
  | (Except.ok recipe, s1) =>
      let tr := get_and_create_assoc u p.tags recipe.tags s1.tags s1.next_tag_id
      let ir := get_and_create_assoc u p.ingredients recipe.ingredients
                  s1.ingredients s1.next_ingredient_id
      let recipe2 := { recipe with tags := tr.1, ingredients := ir.1 }
      (Except.ok recipe2,
       { s1 with tags := tr.2.1, next_tag_id := tr.2.2,
                 ingredients := ir.2.1, next_ingredient_id := ir.2.2,
                 recipes := saveRecipe s1.recipes recipe2 })

/-- Embeds `RecipeSerializer.update`: pop `tags`/`ingredients` with
default `None`; when present, `clear()` the association set and
re-resolve from the given list; then run the `setattr` loop over the
remaining items and `save()`. -/
def serializer_update (u : Nat) (p : UpdatePayload) (inst : RecipeRow)
    (store : Store) : RecipeRow × Store :=
  let tr := match p.tags with
    | none => (inst.tags, store.tags, store.next_tag_id)
    | some l => get_and_create_assoc u l [] store.tags store.next_tag_id
  let ir := match p.ingredients with
    | none => (inst.ingredients, store.ingredients, store.next_ingredient_id)
    | some l => get_and_create_assoc u l [] store.ingredients
                  store.next_ingredient_id
  let inst2 := { inst with tags := tr.1, ingredients := ir.1 }
  let inst3 := applyScalars inst2 (updateItems p)
  (inst3,
   { store with tags := tr.2.1, next_tag_id := tr.2.2,
                ingredients := ir.2.1, next_ingredient_id := ir.2.2,
                recipes := saveRecipe store.recipes inst3 })

/-! ### User factory (`core/models.py`, `UserManager.create_user`) -/

/-- Embeds `UserManager.create_user`: an empty email raises
`ValueError` before any model instance is built or saved; otherwise the
email is normalised, the password is hashed by `set_password` and the
user is saved.  Normalisation and hashing are framework primitives,
passed in as functions; `password=None` is modelled by `Option`.
The flag defaults are the model declaration's: `is_active=True`,
`is_staff=False`, and `is_superuser=False` from `PermissionsMixin`. -/
def create_user (normalize : String → String) (hashPw : Option String → String)
    (email : String) (password : Option String) (nm : String)
    (users : List UserRow) : Except String UserRow × List UserRow :=
  if email = "" then
    (Except.error "User must have an email address.", users)
  else
    let u : UserRow :=
      { email := normalize email, name := nm, password := hashPw password,
        is_active := true, is_staff := false, is_superuser := false }
    (Except.ok u, users ++ [u])

/-! ### Recipe deletion -/

/-- Modelled from the spec: recipe deletion itself is framework code not
present under `src/` (only the `ManyToManyField` declarations of
`Recipe.tags` / `Recipe.ingredients` are).  Per the spec, deleting a
Recipe removes the recipe row together with its rows of the underlying
association table, and must not delete shared Tags/Ingredients.  The
association memberships live inside `RecipeRow.tags` /
`RecipeRow.ingredients` here, so dropping the row drops exactly the
memberships while the `tags` and `ingredients` tables stay as declared
fields of the store. -/
def deleteRecipe (store : Store) (rid : Nat) : Store :=
  { store with recipes := store.recipes.filter (fun r => r.id != rid) }

/-! ## Theorems -/

/-- Helper: the lookup key in propositional form. -/
theorem rowMatches_iff (u : Nat) (n : String) (t : NamedRow) :
    rowMatches u n t = true ↔ t.user = u ∧ t.name = n := by
  simp [rowMatches]

/-- Helper: the association set stays duplicate-free under `add`. -/
theorem m2mAdd_nodup (s : List Nat) (i : Nat) (h : s.Nodup) :
    (m2mAdd s i).Nodup := by
  unfold m2mAdd
  split
  · exact h
  · next hni => simp [List.nodup_append, h, hni]

/-- Helper: after `add`, the added id is a member. -/
theorem m2mAdd_mem_self (s : List Nat) (i : Nat) : i ∈ m2mAdd s i := by
  unfold m2mAdd
  split
  · assumption
  · simp

/-- Helper: `add` keeps existing memberships. -/
theorem m2mAdd_mem_mono (s : List Nat) (i j : Nat) (h : j ∈ s) :
    j ∈ m2mAdd s i := by
  unfold m2mAdd
  split
  · exact h
  · simp [h]

/-- Helper: adding an existing membership is a no-op. -/
theorem m2mAdd_eq_of_mem (s : List Nat) (i : Nat) (h : i ∈ s) :
    m2mAdd s i = s := by
  simp [m2mAdd, h]

/-- Helper: a table satisfying the uniqueness invariant has at most one
row per (user, name) pair. -/
theorem countNamed_le_one (table : List NamedRow) (u : Nat) (n : String)
    (hU : UniqTable table) : countNamed table u n ≤ 1 := by
  unfold countNamed
  cases hf : table.filter (rowMatches u n) with
  | nil => simp
  | cons a t =>
      cases t with
      | nil => simp
      | cons b t2 =>
          exfalso
          have hp := hU.filter (rowMatches u n)
          rw [hf] at hp
          have hr := List.rel_of_pairwise_cons hp (List.mem_cons_self b t2)
          have ha : a ∈ table.filter (rowMatches u n) := by rw [hf]; simp
          have hb : b ∈ table.filter (rowMatches u n) := by rw [hf]; simp
          rw [List.mem_filter] at ha hb
          rw [rowMatches_iff] at ha hb
          rcases hr with h | h <;> simp_all

/-- Helper: a matching member forces a positive count. -/
theorem countNamed_pos (table : List NamedRow) (u : Nat) (n : String)
    (t : NamedRow) (ht : t ∈ table) (hu : t.user = u) (hn : t.name = n) :
    1 ≤ countNamed table u n := by
  unfold countNamed
  have : t ∈ table.filter (rowMatches u n) :=
    List.mem_filter.2 ⟨ht, (rowMatches_iff u n t).2 ⟨hu, hn⟩⟩
  exact List.length_pos.2 (List.ne_nil_of_mem this)

/-- Helper: appending one row adds one to the count of its own
(user, name) pair and nothing to any other. -/
theorem countNamed_append_single (table : List NamedRow) (r : NamedRow)
    (u : Nat) (n : String) :
    countNamed (table ++ [r]) u n =
      countNamed table u n + (if r.user = u ∧ r.name = n then 1 else 0) := by
  unfold countNamed
  rw [List.filter_append]
  by_cases h : r.user = u ∧ r.name = n
  · have : rowMatches u n r = true := (rowMatches_iff u n r).2 h
    simp [this, h]
  · have : ¬ (rowMatches u n r = true) := fun hc => h ((rowMatches_iff u n r).1 hc)
    simp [this, h]

/-- Helper: a failed lookup means a zero count. -/
theorem countNamed_eq_zero_of_find?_none (table : List NamedRow) (u : Nat)
    (n : String) (h : table.find? (rowMatches u n) = none) :
    countNamed table u n = 0 := by
  unfold countNamed
  rw [List.length_eq_zero, List.filter_eq_nil_iff]
  intro a ha
  simpa using List.find?_eq_none.1 h a ha

/-- Helper: `get_or_create` on a hit returns the found row and leaves
the table and the counter alone. -/
theorem getOrCreate_found (table : List NamedRow) (next u : Nat) (n : String)
    (t : NamedRow) (h : table.find? (rowMatches u n) = some t) :
    getOrCreate table next u n = (t, table, next) := by
  simp [getOrCreate, h]

/-- Helper: `get_or_create` on a miss appends a fresh row. -/
theorem getOrCreate_new (table : List NamedRow) (next u : Nat) (n : String)
    (h : table.find? (rowMatches u n) = none) :
    getOrCreate table next u n =
      (⟨next, u, n⟩, table ++ [⟨next, u, n⟩], next + 1) := by
  simp [getOrCreate, h]

/-- Helper: the row `get_or_create` returns carries the requested
(user, name) pair. -/
theorem getOrCreate_row (table : List NamedRow) (next u : Nat) (n : String) :
    (getOrCreate table next u n).1.user = u ∧
      (getOrCreate table next u n).1.name = n := by
  cases h : table.find? (rowMatches u n) with
  | none => rw [getOrCreate_new table next u n h]; exact ⟨rfl, rfl⟩
  | some t =>
      rw [getOrCreate_found table next u n t h]
      exact (rowMatches_iff u n t).1 (List.find?_some h)

/-- Helper: the row `get_or_create` returns is in the table after. -/
theorem getOrCreate_row_mem (table : List NamedRow) (next u : Nat) (n : String) :
    (getOrCreate table next u n).1 ∈ (getOrCreate table next u n).2.1 := by
  cases h : table.find? (rowMatches u n) with
  | none => rw [getOrCreate_new table next u n h]; simp
  | some t =>
      rw [getOrCreate_found table next u n t h]
      exact List.mem_of_find?_eq_some h

/-- Helper: `get_or_create` never removes rows. -/
theorem getOrCreate_table_mono (table : List NamedRow) (next u : Nat)
    (n : String) (t : NamedRow) (ht : t ∈ table) :
    t ∈ (getOrCreate table next u n).2.1 := by
  cases h : table.find? (rowMatches u n) with
  | none => rw [getOrCreate_new table next u n h]; simp [ht]
  | some t2 => rw [getOrCreate_found table next u n t2 h]; exact ht

/-- Helper: `get_or_create` preserves per-(user, name) uniqueness. -/
theorem getOrCreate_uniq (table : List NamedRow) (next u : Nat) (n : String)
    (hU : UniqTable table) : UniqTable (getOrCreate table next u n).2.1 := by
  cases h : table.find? (rowMatches u n) with
  | some t2 => rw [getOrCreate_found table next u n t2 h]; exact hU
  | none =>
      rw [getOrCreate_new table next u n h]
      unfold UniqTable at hU ⊢
      rw [List.pairwise_append]
      refine ⟨hU, by simp, ?_⟩
      intro a ha b hb
      simp only [List.mem_singleton] at hb
      subst hb
      have hnm := List.find?_eq_none.1 h a ha
      have hnm2 : ¬ (a.user = u ∧ a.name = n) :=
        fun hc => hnm ((rowMatches_iff u n a).2 hc)
      rcases Decidable.em (a.user = u) with hau | hau
      · exact Or.inr (fun hc => hnm2 ⟨hau, hc⟩)
      · exact Or.inl hau

/-- Helper: after `get_or_create`, the requested pair has exactly one
row. -/
theorem getOrCreate_count_self (table : List NamedRow) (next u : Nat)
    (n : String) (hU : UniqTable table) :
    countNamed (getOrCreate table next u n).2.1 u n = 1 := by
  cases h : table.find? (rowMatches u n) with
  | some t =>
      rw [getOrCreate_found table next u n t h]
      show countNamed table u n = 1
      have ht := List.mem_of_find?_eq_some h
      have hp := (rowMatches_iff u n t).1 (List.find?_some h)
      have h1 := countNamed_pos table u n t ht hp.1 hp.2
      have h2 := countNamed_le_one table u n hU
      omega
  | none =>
      rw [getOrCreate_new table next u n h]
      show countNamed (table ++ [⟨next, u, n⟩]) u n = 1
      rw [countNamed_append_single, countNamed_eq_zero_of_find?_none table u n h]
      simp

/-- Helper: `get_or_create` leaves the count of any already-populated
pair unchanged. -/
theorem getOrCreate_count_keep (table : List NamedRow) (next u : Nat)
    (n : String) (u2 : Nat) (n2 : String)
    (hpos : 1 ≤ countNamed table u2 n2) :
    countNamed (getOrCreate table next u n).2.1 u2 n2 =
      countNamed table u2 n2 := by
  cases h : table.find? (rowMatches u n) with
  | some t => rw [getOrCreate_found table next u n t h]
  | none =>
      rw [getOrCreate_new table next u n h]
      show countNamed (table ++ [⟨next, u, n⟩]) u2 n2 = _
      rw [countNamed_append_single]
      by_cases he : u = u2 ∧ n = n2
      · exfalso
        have h0 := countNamed_eq_zero_of_find?_none table u n h
        rw [he.1, he.2] at h0
        rw [h0] at hpos
        exact absurd hpos (by decide)
      · have hr : ¬ ((⟨next, u, n⟩ : NamedRow).user = u2 ∧
            (⟨next, u, n⟩ : NamedRow).name = n2) := he
        simp [hr]

/-- Helper: under the uniqueness invariant, two matching rows are the
same row. -/
theorem uniq_match (table : List NamedRow) (u : Nat) (n : String)
    (t1 t2 : NamedRow) (hU : UniqTable table)
    (h1 : t1 ∈ table) (h2 : t2 ∈ table)
    (m1 : t1.user = u ∧ t1.name = n) (m2 : t2.user = u ∧ t2.name = n) :
    t1 = t2 := by
  by_contra hne
  have hsym : Symmetric (fun a b : NamedRow => a.user ≠ b.user ∨ a.name ≠ b.name) := by
    intro a b h
    rcases h with h | h
    · exact Or.inl (Ne.symm h)
    · exact Or.inr (Ne.symm h)
  have := List.Pairwise.forall hsym hU h1 h2 hne
  rcases this with h | h <;> simp_all

/-- Helper: the get-and-create loop preserves per-(user, name)
uniqueness. -/
theorem gac_uniq (u : Nat) (names : List String) :
    ∀ (assoc : List Nat) (table : List NamedRow) (next : Nat),
      UniqTable table →
      UniqTable (get_and_create_assoc u names assoc table next).2.1 := by
  induction names with
  | nil => intro assoc table next hU; exact hU
  | cons n rest ih =>
      intro assoc table next hU
      exact ih _ _ _ (getOrCreate_uniq table next u n hU)

/-- Helper: the loop never removes table rows. -/
theorem gac_table_mono (u : Nat) (names : List String) :
    ∀ (assoc : List Nat) (table : List NamedRow) (next : Nat)
      (t : NamedRow), t ∈ table →
      t ∈ (get_and_create_assoc u names assoc table next).2.1 := by
  induction names with
  | nil => intro assoc table next t ht; exact ht
  | cons n rest ih =>
      intro assoc table next t ht
      exact ih _ _ _ t (getOrCreate_table_mono table next u n t ht)

/-- Helper: the loop never removes association memberships. -/
theorem gac_assoc_mono (u : Nat) (names : List String) :
    ∀ (assoc : List Nat) (table : List NamedRow) (next : Nat) (i : Nat),
      i ∈ assoc → i ∈ (get_and_create_assoc u names assoc table next).1 := by
  induction names with
  | nil => intro assoc table next i hi; exact hi
  | cons n rest ih =>
      intro assoc table next i hi
      exact ih _ _ _ i (m2mAdd_mem_mono assoc _ i hi)

/-- Helper: the loop keeps the association set duplicate-free. -/
theorem gac_nodup (u : Nat) (names : List String) :
    ∀ (assoc : List Nat) (table : List NamedRow) (next : Nat),
      assoc.Nodup → (get_and_create_assoc u names assoc table next).1.Nodup := by
  induction names with
  | nil => intro assoc table next h; exact h
  | cons n rest ih =>
      intro assoc table next h
      exact ih _ _ _ (m2mAdd_nodup assoc _ h)

/-- Helper: the loop leaves the count of any already-populated pair
unchanged. -/
theorem gac_count_keep (u : Nat) (names : List String) :
    ∀ (assoc : List Nat) (table : List NamedRow) (next : Nat)
      (u2 : Nat) (n2 : String), 1 ≤ countNamed table u2 n2 →
      countNamed (get_and_create_assoc u names assoc table next).2.1 u2 n2 =
        countNamed table u2 n2 := by
  induction names with
  | nil => intro assoc table next u2 n2 _; rfl
  | cons n rest ih =>
      intro assoc table next u2 n2 hpos
      have hk := getOrCreate_count_keep table next u n u2 n2 hpos
      have hpos2 : 1 ≤ countNamed (getOrCreate table next u n).2.1 u2 n2 := by
        rw [hk]; exact hpos
      rw [show (get_and_create_assoc u (n :: rest) assoc table next) =
        get_and_create_assoc u rest (m2mAdd assoc (getOrCreate table next u n).1.id)
          (getOrCreate table next u n).2.1 (getOrCreate table next u n).2.2 from rfl]
      rw [ih _ _ _ u2 n2 hpos2, hk]

/-- Helper: after the loop, every submitted name has exactly one row
for the user. -/
theorem gac_count_mem (u : Nat) (names : List String) :
    ∀ (assoc : List Nat) (table : List NamedRow) (next : Nat),
      UniqTable table → ∀ n ∈ names,
      countNamed (get_and_create_assoc u names assoc table next).2.1 u n = 1 := by
  induction names with
  | nil => intro assoc table next _ n hn; exact absurd hn (List.not_mem_nil n)
  | cons n0 rest ih =>
      intro assoc table next hU n hn
      rcases List.mem_cons.1 hn with h | h
      · subst h
        have h1 := getOrCreate_count_self table next u n hU
        have := gac_count_keep u rest
          (m2mAdd assoc (getOrCreate table next u n).1.id)
          (getOrCreate table next u n).2.1 (getOrCreate table next u n).2.2
          u n (by rw [h1])
        rw [show (get_and_create_assoc u (n :: rest) assoc table next) =
          get_and_create_assoc u rest (m2mAdd assoc (getOrCreate table next u n).1.id)
            (getOrCreate table next u n).2.1 (getOrCreate table next u n).2.2 from rfl]
        rw [this, h1]
      · exact ih _ _ _ (getOrCreate_uniq table next u n0 hU) n h

/-- Helper: after the loop, every submitted name has a matching row
that is attached to the recipe. -/
theorem gac_attached (u : Nat) (names : List String) :
    ∀ (assoc : List Nat) (table : List NamedRow) (next : Nat),
      ∀ n ∈ names, ∃ t : NamedRow,
        t ∈ (get_and_create_assoc u names assoc table next).2.1 ∧
        t.user = u ∧ t.name = n ∧
        t.id ∈ (get_and_create_assoc u names assoc table next).1 := by
  induction names with
  | nil => intro assoc table next n hn; exact absurd hn (List.not_mem_nil n)
  | cons n0 rest ih =>
      intro assoc table next n hn
      rcases List.mem_cons.1 hn with h | h
      · subst h
        refine ⟨(getOrCreate table next u n).1, ?_, (getOrCreate_row table next u n).1,
          (getOrCreate_row table next u n).2, ?_⟩
        · exact gac_table_mono u rest _ _ _ _ (getOrCreate_row_mem table next u n)
        · exact gac_assoc_mono u rest _ _ _ _
            (m2mAdd_mem_self assoc (getOrCreate table next u n).1.id)
      · exact ih _ _ _ n h

/-- Helper: when every submitted name already has a matching attached
row, the loop changes nothing. -/
theorem gac_idempotent (u : Nat) (names : List String) :
    ∀ (assoc : List Nat) (table : List NamedRow) (next : Nat),
      UniqTable table →
      (∀ n ∈ names, ∃ t : NamedRow, t ∈ table ∧ t.user = u ∧ t.name = n ∧
        t.id ∈ assoc) →
      get_and_create_assoc u names assoc table next = (assoc, table, next) := by
  induction names with
  | nil => intro assoc table next _ _; rfl
  | cons n0 rest ih =>
      intro assoc table next hU hall
      obtain ⟨t, ht, htu, htn, hta⟩ := hall n0 (List.mem_cons_self n0 rest)
      have hsome : (table.find? (rowMatches u n0)).isSome := by
        rw [List.find?_isSome]
        exact ⟨t, ht, (rowMatches_iff u n0 t).2 ⟨htu, htn⟩⟩
      obtain ⟨t2, ht2⟩ := Option.isSome_iff_exists.1 hsome
      have ht2mem := List.mem_of_find?_eq_some ht2
      have ht2p := (rowMatches_iff u n0 t2).1 (List.find?_some ht2)
      have : t2 = t :=
        uniq_match table u n0 t2 t hU ht2mem ht ⟨ht2p.1, ht2p.2⟩ ⟨htu, htn⟩
      subst this
      rw [show (get_and_create_assoc u (n0 :: rest) assoc table next) =
        get_and_create_assoc u rest (m2mAdd assoc (getOrCreate table next u n0).1.id)
          (getOrCreate table next u n0).2.1 (getOrCreate table next u n0).2.2 from rfl]
      rw [getOrCreate_found table next u n0 t2 ht2]
      rw [show ((t2, table, next) : NamedRow × List NamedRow × Nat).1.id = t2.id from rfl]
      rw [m2mAdd_eq_of_mem assoc t2.id hta]
      exact ih assoc table next hU (fun n hn => hall n (List.mem_cons_of_mem n0 hn))

theorem C3_get_or_create_idempotent (u : Nat) (names : List String)
    (assoc : List Nat) (table : List NamedRow) (next : Nat)
    (hU : UniqTable table) (hA : assoc.Nodup) :
    (∀ n ∈ names,
      countNamed (get_and_create_assoc u names assoc table next).2.1 u n = 1) ∧
    UniqTable (get_and_create_assoc u names assoc table next).2.1 ∧
    (get_and_create_assoc u names assoc table next).1.Nodup ∧
    (∀ n ∈ names, ∃ t : NamedRow,
      t ∈ (get_and_create_assoc u names assoc table next).2.1 ∧
      t.user = u ∧ t.name = n ∧
      t.id ∈ (get_and_create_assoc u names assoc table next).1) ∧
    get_and_create_assoc u names
        (get_and_create_assoc u names assoc table next).1
        (get_and_create_assoc u names assoc table next).2.1
        (get_and_create_assoc u names assoc table next).2.2 =
      get_and_create_assoc u names assoc table next := by
  refine ⟨gac_count_mem u names assoc table next hU,
          gac_uniq u names assoc table next hU,
          gac_nodup u names assoc table next hA,
          gac_attached u names assoc table next,
          ?_⟩
  rw [gac_idempotent u names
    (get_and_create_assoc u names assoc table next).1
    (get_and_create_assoc u names assoc table next).2.1
    (get_and_create_assoc u names assoc table next).2.2
    (gac_uniq u names assoc table next hU)
    (gac_attached u names assoc table next)]

theorem C3_get_or_create_idempotent_witness :
    countNamed (get_and_create_assoc 3 ["veg", "veg"] [] [] 0).2.1 3 "veg" = 1 ∧
    (get_and_create_assoc 3 ["veg", "veg"] [] [] 0).1.Nodup ∧
    get_and_create_assoc 3 ["veg", "veg"]
        (get_and_create_assoc 3 ["veg", "veg"] [] [] 0).1
        (get_and_create_assoc 3 ["veg", "veg"] [] [] 0).2.1
        (get_and_create_assoc 3 ["veg", "veg"] [] [] 0).2.2 =
      get_and_create_assoc 3 ["veg", "veg"] [] [] 0 ∧
    get_and_create_assoc 3 ["veg", "veg"] [] [] 0 =
      ([0], [⟨0, 3, "veg"⟩], 1) :=
  ⟨(C3_get_or_create_idempotent 3 ["veg", "veg"] [] [] 0 List.Pairwise.nil List.Pairwise.nil).1
      "veg" (by decide),
   (C3_get_or_create_idempotent 3 ["veg", "veg"] [] [] 0 List.Pairwise.nil List.Pairwise.nil).2.2.1,
   (C3_get_or_create_idempotent 3 ["veg", "veg"] [] [] 0 List.Pairwise.nil List.Pairwise.nil).2.2.2.2,
   by decide⟩

/-- Helper: `rfindChar` never goes below `-1`. -/
theorem rfindChar_neg_le (p : List Char) (c : Char) : -1 ≤ rfindChar p c := by
  induction p with
  | nil => simp [rfindChar]
  | cons x xs ih =>
      simp only [rfindChar]
      split
      · omega
      · split <;> omega

/-- Helper: a character that does not occur has no last occurrence. -/
theorem rfindChar_eq_neg_one (p : List Char) (c : Char) (h : c ∉ p) :
    rfindChar p c = -1 := by
  induction p with
  | nil => rfl
  | cons x xs ih =>
      simp only [List.mem_cons] at h
      push_neg at h
      simp only [rfindChar, ih h.2]
      simp [h.1, Ne.symm h.1]

/-- Helper: `toList` distributes over string append. -/
theorem toList_append (s t : String) :
    (s ++ t).toList = s.toList ++ t.toList := by
  simp [String.toList, String.data_append]

/-- Helper: `toList` preserves length. -/
theorem toList_length (s : String) : s.toList.length = s.length := rfl

/-- Helper: `toList` is injective. -/
theorem toList_inj (a b : String) (h : a.toList = b.toList) : a = b := by
  cases a; cases b
  exact congrArg String.mk (by simpa [String.toList] using h)

/-- Helper: the extension `splitext` keeps is either empty or exactly
the suffix of the input from its last dot onward, and an input with no
dot keeps no extension. -/
theorem splitext_char (p : List Char) :
    ((splitext p).2 ≠ [] →
      ∃ i : Nat, rfindChar p '.' = (i : Int) ∧
        (splitext p).2 = p.drop i ∧ (splitext p).1 = p.take i) ∧
    (rfindChar p '.' = -1 → (splitext p).2 = []) := by
  constructor
  · intro hne
    by_cases hc : rfindChar p '/' < rfindChar p '.' ∧
        hasNonDotBetween p (rfindChar p '/' + 1).toNat
          (rfindChar p '.').toNat = true
    · have h0 : (0 : Int) ≤ rfindChar p '.' := by
        have := rfindChar_neg_le p '/'
        omega
      refine ⟨(rfindChar p '.').toNat, (Int.toNat_of_nonneg h0).symm, ?_, ?_⟩ <;>
        simp [splitext, hc]
    · exfalso
      apply hne
      simp only [splitext]
      rw [if_neg]
      intro hcon
      exact hc ⟨hcon.1, hcon.2⟩
  · intro h
    have := rfindChar_neg_le p '/'
    simp only [splitext]
    rw [if_neg]
    intro hcon
    omega

/-- Helper: `getD` of `getLast?` peels one cons. -/
theorem getLast?_getD_cons {α : Type} (b : α) (xs : List α) (d : α) :
    ((b :: xs).getLast?).getD d = (xs.getLast?).getD b := by
  cases xs with
  | nil => rfl
  | cons x t =>
      rw [List.getLast?_cons_cons]
      cases h : (x :: t).getLast? with
      | none => simp at h
      | some y => rfl

/-- Helper: the `setattr` loop, seen through one column projection, ends
at the last value the items assign to that column, or at the starting
value when no item names it. -/
theorem foldl_setattr_proj {α : Type} (proj : RecipeRow → α)
    (sel : AttrVal → Option α)
    (hkeep : ∀ r a, sel a = none → proj (setattrRow r a) = proj r)
    (hset : ∀ r a v, sel a = some v → proj (setattrRow r a) = v) :
    ∀ (items : List AttrVal) (r : RecipeRow),
      proj (applyScalars r items) =
        ((items.filterMap sel).getLast?).getD (proj r)
  | [], r => by simp [applyScalars]
  | a :: t, r => by
      have ih := foldl_setattr_proj proj sel hkeep hset t (setattrRow r a)
      show proj (applyScalars (setattrRow r a) t) = _
      cases hsa : sel a with
      | none =>
          rw [ih, hkeep r a hsa, List.filterMap_cons_none hsa]
      | some v =>
          rw [ih, hset r a v hsa, List.filterMap_cons_some hsa,
            getLast?_getD_cons]

/-- Helper instance of `foldl_setattr_proj` for `title_en`. -/
theorem applyScalars_title_en (items : List AttrVal) (r : RecipeRow) :
    (applyScalars r items).title_en =
      ((items.filterMap sel_title_en).getLast?).getD r.title_en :=
  foldl_setattr_proj _ _
    (by intro r a h; cases a <;> simp_all [sel_title_en, setattrRow])
    (by intro r a v h; cases a <;> simp_all [sel_title_en, setattrRow]) items r

/-- Helper instance of `foldl_setattr_proj` for `title_ar`. -/
theorem applyScalars_title_ar (items : List AttrVal) (r : RecipeRow) :
    (applyScalars r items).title_ar =
      ((items.filterMap sel_title_ar).getLast?).getD r.title_ar :=
  foldl_setattr_proj _ _
    (by intro r a h; cases a <;> simp_all [sel_title_ar, setattrRow])
    (by intro r a v h; cases a <;> simp_all [sel_title_ar, setattrRow]) items r

/-- Helper instance of `foldl_setattr_proj` for `description_en`. -/
theorem applyScalars_description_en (items : List AttrVal) (r : RecipeRow) :
    (applyScalars r items).description_en =
      ((items.filterMap sel_description_en).getLast?).getD r.description_en :=
  foldl_setattr_proj _ _
    (by intro r a h; cases a <;> simp_all [sel_description_en, setattrRow])
    (by intro r a v h; cases a <;> simp_all [sel_description_en, setattrRow])
    items r

/-- Helper instance of `foldl_setattr_proj` for `description_ar`. -/
theorem applyScalars_description_ar (items : List AttrVal) (r : RecipeRow) :
    (applyScalars r items).description_ar =
      ((items.filterMap sel_description_ar).getLast?).getD r.description_ar :=
  foldl_setattr_proj _ _
    (by intro r a h; cases a <;> simp_all [sel_description_ar, setattrRow])
    (by intro r a v h; cases a <;> simp_all [sel_description_ar, setattrRow])
    items r

/-- Helper instance of `foldl_setattr_proj` for `time_minutes_en`. -/
theorem applyScalars_time_minutes_en (items : List AttrVal) (r : RecipeRow) :
    (applyScalars r items).time_minutes_en =
      ((items.filterMap sel_time_minutes_en).getLast?).getD r.time_minutes_en :=
  foldl_setattr_proj _ _
    (by intro r a h; cases a <;> simp_all [sel_time_minutes_en, setattrRow])
    (by intro r a v h; cases a <;> simp_all [sel_time_minutes_en, setattrRow])
    items r

/-- Helper instance of `foldl_setattr_proj` for `time_minutes_ar`. -/
theorem applyScalars_time_minutes_ar (items : List AttrVal) (r : RecipeRow) :
    (applyScalars r items).time_minutes_ar =
      ((items.filterMap sel_time_minutes_ar).getLast?).getD r.time_minutes_ar :=
  foldl_setattr_proj _ _
    (by intro r a h; cases a <;> simp_all [sel_time_minutes_ar, setattrRow])
    (by intro r a v h; cases a <;> simp_all [sel_time_minutes_ar, setattrRow])
    items r

/-- Helper instance of `foldl_setattr_proj` for `price_en`. -/
theorem applyScalars_price_en (items : List AttrVal) (r : RecipeRow) :
    (applyScalars r items).price_en =
      ((items.filterMap sel_price_en).getLast?).getD r.price_en :=
  foldl_setattr_proj _ _
    (by intro r a h; cases a <;> simp_all [sel_price_en, setattrRow])
    (by intro r a v h; cases a <;> simp_all [sel_price_en, setattrRow]) items r

/-- Helper instance of `foldl_setattr_proj` for `price_ar`. -/
theorem applyScalars_price_ar (items : List AttrVal) (r : RecipeRow) :
    (applyScalars r items).price_ar =
      ((items.filterMap sel_price_ar).getLast?).getD r.price_ar :=
  foldl_setattr_proj _ _
    (by intro r a h; cases a <;> simp_all [sel_price_ar, setattrRow])
    (by intro r a v h; cases a <;> simp_all [sel_price_ar, setattrRow]) items r

/-- Helper instance of `foldl_setattr_proj` for `link_en`. -/
theorem applyScalars_link_en (items : List AttrVal) (r : RecipeRow) :
    (applyScalars r items).link_en =
      ((items.filterMap sel_link_en).getLast?).getD r.link_en :=
  foldl_setattr_proj _ _
    (by intro r a h; cases a <;> simp_all [sel_link_en, setattrRow])
    (by intro r a v h; cases a <;> simp_all [sel_link_en, setattrRow]) items r

/-- Helper instance of `foldl_setattr_proj` for `link_ar`. -/
theorem applyScalars_link_ar (items : List AttrVal) (r : RecipeRow) :
    (applyScalars r items).link_ar =
      ((items.filterMap sel_link_ar).getLast?).getD r.link_ar :=
  foldl_setattr_proj _ _
    (by intro r a h; cases a <;> simp_all [sel_link_ar, setattrRow])
    (by intro r a v h; cases a <;> simp_all [sel_link_ar, setattrRow]) items r

/-- Helper instance of `foldl_setattr_proj` for `image`. -/
theorem applyScalars_image (items : List AttrVal) (r : RecipeRow) :
    (applyScalars r items).image =
      ((items.filterMap sel_image).getLast?).getD r.image :=
  foldl_setattr_proj _ _
    (by intro r a h; cases a <;> simp_all [sel_image, setattrRow])
    (by intro r a v h; cases a <;> simp_all [sel_image, setattrRow]) items r

/-- C5: On recipe update, every scalar column named by an item of the
payload ends at the (last) value the payload assigns it, and every
column no item names keeps its previous value: the `setattr` loop of
`RecipeSerializer.update` projected onto each stored column equals the
last payload value for that column, defaulting to the stored one.
Present fields overwrite, omitted fields are untouched. -/
theorem C5_update_scalar_frame (inst : RecipeRow) (items : List AttrVal) :
    (applyScalars inst items).title_en =
      ((items.filterMap sel_title_en).getLast?).getD inst.title_en ∧
    (applyScalars inst items).title_ar =
      ((items.filterMap sel_title_ar).getLast?).getD inst.title_ar ∧
    (applyScalars inst items).description_en =
      ((items.filterMap sel_description_en).getLast?).getD inst.description_en ∧
    (applyScalars inst items).description_ar =
      ((items.filterMap sel_description_ar).getLast?).getD inst.description_ar ∧
    (applyScalars inst items).time_minutes_en =
      ((items.filterMap sel_time_minutes_en).getLast?).getD inst.time_minutes_en ∧
    (applyScalars inst items).time_minutes_ar =
      ((items.filterMap sel_time_minutes_ar).getLast?).getD inst.time_minutes_ar ∧
    (applyScalars inst items).price_en =
      ((items.filterMap sel_price_en).getLast?).getD inst.price_en ∧
    (applyScalars inst items).price_ar =
      ((items.filterMap sel_price_ar).getLast?).getD inst.price_ar ∧
    (applyScalars inst items).link_en =
      ((items.filterMap sel_link_en).getLast?).getD inst.link_en ∧
    (applyScalars inst items).link_ar =
      ((items.filterMap sel_link_ar).getLast?).getD inst.link_ar ∧
    (applyScalars inst items).image =
      ((items.filterMap sel_image).getLast?).getD inst.image :=
  ⟨applyScalars_title_en items inst, applyScalars_title_ar items inst,
   applyScalars_description_en items inst, applyScalars_description_ar items inst,
   applyScalars_time_minutes_en items inst, applyScalars_time_minutes_ar items inst,
   applyScalars_price_en items inst, applyScalars_price_ar items inst,
   applyScalars_link_en items inst, applyScalars_link_ar items inst,
   applyScalars_image items inst⟩

/-- C7: `create_user` rejects an empty email with a `ValueError` before
any persistence (the user table is unchanged), and for a non-empty
email the saved user's stored password is the hash of the given
password. -/
theorem C7_create_user (normalize : String → String)
    (hashPw : Option String → String) (email : String) (pw : Option String)
    (nm : String) (users : List UserRow) :
    (email = "" →
      (create_user normalize hashPw email pw nm users).1
          = Except.error "User must have an email address." ∧
      (create_user normalize hashPw email pw nm users).2 = users) ∧
    (email ≠ "" →
      ∃ u : UserRow,
        (create_user normalize hashPw email pw nm users).1 = Except.ok u ∧
        (create_user normalize hashPw email pw nm users).2 = users ++ [u] ∧
        u.password = hashPw pw ∧
        u.email = normalize email ∧
        u.is_active = true ∧ u.is_staff = false ∧ u.is_superuser = false) := by
  constructor
  · intro h
    simp [create_user, h]
  · intro h
    refine ⟨{ email := normalize email, name := nm, password := hashPw pw,
              is_active := true, is_staff := false, is_superuser := false },
            ?_, ?_, rfl, rfl, rfl, rfl, rfl⟩ <;> simp [create_user, h]

/-- Witness for C7 at concrete inputs: with an empty email the table is
untouched and the error is raised; with email `"a@b.c"` the persisted
password is the hash of the submitted one. -/
theorem C7_create_user_witness :
    ((create_user id (fun p => "sha$" ++ p.getD "") "" (some "pw") "n" []).2
        = [] ∧
     (create_user id (fun p => "sha$" ++ p.getD "") "" (some "pw") "n" []).1
        = Except.error "User must have an email address.") ∧
    (∃ u : UserRow,
      (create_user id (fun p => "sha$" ++ p.getD "") "a@b.c" (some "pw") "n"
        []).1 = Except.ok u ∧ u.password = "sha$pw") := by
  constructor
  · exact ⟨((C7_create_user id (fun p => "sha$" ++ p.getD "") "" (some "pw")
        "n" []).1 rfl).2,
      ((C7_create_user id (fun p => "sha$" ++ p.getD "") "" (some "pw")
        "n" []).1 rfl).1⟩
  · obtain ⟨u, h1, _, h3, _⟩ :=
      (C7_create_user id (fun p => "sha$" ++ p.getD "") "a@b.c" (some "pw")
        "n" []).2 (by decide)
    exact ⟨u, h1, by rw [h3]; decide⟩

/-- C1: For every recipe and every request language code, each logical
field (title, description, time_minutes, price, link) projects to the
`_ar` column exactly when the code is `"ar"`, and to the `_en` column for
every other code, so unsupported codes behave identically to `"en"`.
The projection functions take the row and return a value without
touching the row, so the read is pure by construction. -/
theorem C1_locale_projection (lang : String) (obj : RecipeRow) :
    (lang = "ar" →
      get_title lang obj = obj.title_ar ∧
      get_description lang obj = obj.description_ar ∧
      get_time_minutes lang obj = obj.time_minutes_ar ∧
      get_price lang obj = obj.price_ar ∧
      get_link lang obj = some obj.link_ar) ∧
    (lang ≠ "ar" →
      get_title lang obj = obj.title_en ∧
      get_description lang obj = obj.description_en ∧
      get_time_minutes lang obj = obj.time_minutes_en ∧
      get_price lang obj = obj.price_en ∧
      get_link lang obj = some obj.link_en) ∧
    (lang ≠ "ar" →
      get_title lang obj = get_title "en" obj ∧
      get_description lang obj = get_description "en" obj ∧
      get_time_minutes lang obj = get_time_minutes "en" obj ∧
      get_price lang obj = get_price "en" obj ∧
      get_link lang obj = get_link "en" obj) := by
  refine ⟨fun h => ?_, fun h => ?_, fun h => ?_⟩ <;>
    simp [get_title, get_description, get_time_minutes, get_price, get_link, h]

/-- Witness for C1 at concrete inputs: the unsupported code `"fr"`
projects the `_en` columns, and `"ar"` projects the `_ar` columns. -/
theorem C1_locale_projection_witness :
    (get_title "fr"
      { id := 1, user := 2, title_en := some "Tea", title_ar := some "شاي",
        description_en := "d", description_ar := "و", time_minutes_en := some 5,
        time_minutes_ar := some 6, price_en := some 100, price_ar := some 200,
        link_en := "l", link_ar := "r", tags := [], ingredients := [],
        image := none } = some "Tea") ∧
    (get_title "ar"
      { id := 1, user := 2, title_en := some "Tea", title_ar := some "شاي",
        description_en := "d", description_ar := "و", time_minutes_en := some 5,
        time_minutes_ar := some 6, price_en := some 100, price_ar := some 200,
        link_en := "l", link_ar := "r", tags := [], ingredients := [],
        image := none } = some "شاي") :=
  ⟨((C1_locale_projection "fr" _).2.1 (by decide)).1,
   ((C1_locale_projection "ar" _).1 rfl).1⟩

/-- C6: The generated image storage path is
`uploads/recipe/<uuid><ext>` with `ext` the `splitext` extension of the
original filename (kept verbatim, leading dot included), and two uploads
with distinct uuids of the same length (uuid4 renderings are all 36
characters) always produce distinct paths, whatever the filenames. -/
theorem C6_image_path (u1 u2 f1 f2 : String)
    (hlen : u1.length = u2.length) (hne : u1 ≠ u2) :
    recipe_image_file_path u1 f1 =
      "uploads/recipe/" ++ u1 ++ String.mk (splitext f1.toList).2 ∧
    recipe_image_file_path u1 f1 ≠ recipe_image_file_path u2 f2 := by
  constructor
  · simp [recipe_image_file_path, String.append_assoc]
  · intro heq
    apply hne
    have hd := congrArg String.toList heq
    simp only [recipe_image_file_path, toList_append] at hd
    have hd2 := List.append_cancel_left hd
    have hdu := (List.append_inj hd2
      (by rw [toList_length, toList_length]; exact hlen)).1
    exact toList_inj _ _ hdu

/-- Witness for C6 at concrete inputs: uploading `"pic.JPG"` yields a
path ending in `.JPG` (extension kept verbatim with its dot), and the
same filename uploaded under a different uuid yields a different path. -/
theorem C6_image_path_witness :
    recipe_image_file_path "aaaa" "pic.JPG" = "uploads/recipe/aaaa.JPG" ∧
    recipe_image_file_path "aaaa" "pic.JPG" ≠
      recipe_image_file_path "bbbb" "pic.JPG" :=
  ⟨((C6_image_path "aaaa" "bbbb" "pic.JPG" "pic.JPG" rfl (by decide)).1).trans
      (by decide),
   (C6_image_path "aaaa" "bbbb" "pic.JPG" "pic.JPG" rfl (by decide)).2⟩

/-- Counterexample to C10 as stated: for the filename `".bashrc"` the
code keeps no extension at all (Python `os.path.splitext` skips the
leading dots of a basename), while the claim's formula — the substring
of the filename from its last dot onward — would keep `".bashrc"`
itself. -/
theorem C10_last_dot_counterexample :
    specLastDotSuffix ".bashrc" = ".bashrc" ∧
    recipe_image_file_path "u0" ".bashrc" = "uploads/recipe/u0" ∧
    recipe_image_file_path "u0" ".bashrc" ≠
      "uploads/recipe/" ++ "u0" ++ specLastDotSuffix ".bashrc" := by
  refine ⟨?_, ?_, ?_⟩ <;> decide

/-- C10 as amended: the path is `uploads/recipe/<uuid>` followed by the
`splitext` extension of the filename; whenever a non-empty extension is
kept it is exactly the substring of the filename from its last dot
onward, a filename containing no dot keeps no extension — so (for a
dot-free uuid) the path then contains no dot at all — but a filename
whose basename has only dots up to its last dot (a leading-dot name
such as `".bashrc"`) also keeps no extension. -/
theorem C10_amended_image_path (uuid4 filename : String) :
    recipe_image_file_path uuid4 filename =
      "uploads/recipe/" ++ uuid4 ++ String.mk (splitext filename.toList).2 ∧
    ((splitext filename.toList).2 ≠ [] →
      ∃ i : Nat, rfindChar filename.toList '.' = (i : Int) ∧
        (splitext filename.toList).2 = filename.toList.drop i) ∧
    (('.' : Char) ∉ filename.toList → (splitext filename.toList).2 = [] ∧
      (('.' : Char) ∉ uuid4.toList →
        ('.' : Char) ∉ (recipe_image_file_path uuid4 filename).toList)) := by
  refine ⟨?_, ?_, ?_⟩
  · simp [recipe_image_file_path, String.append_assoc]
  · intro hne
    obtain ⟨i, h1, h2, _⟩ := (splitext_char filename.toList).1 hne
    exact ⟨i, h1, h2⟩
  · intro hmem
    have he : (splitext filename.toList).2 = [] :=
      (splitext_char filename.toList).2
        (rfindChar_eq_neg_one filename.toList '.' hmem)
    refine ⟨he, fun hu => ?_⟩
    simp only [recipe_image_file_path, he, toList_append]
    intro hcon
    simp only [List.mem_append] at hcon
    rcases hcon with h | h
    · revert h; decide
    · rcases h with h | h
      · exact hu h
      · simp [String.toList] at h

/-- Witness for the amended C10 at concrete inputs: `"a.b.c"` keeps
exactly the suffix from its last dot, and the dot-free filename
`"nodot"` with a dot-free uuid yields a path without any dot. -/
theorem C10_amended_image_path_witness :
    (∃ i : Nat, rfindChar "a.b.c".toList '.' = (i : Int) ∧
      (splitext "a.b.c".toList).2 = "a.b.c".toList.drop i) ∧
    (('.' : Char) ∉ (recipe_image_file_path "u1" "nodot").toList) :=
  ⟨(C10_amended_image_path "u1" "a.b.c").2.1 (by decide),
   ((C10_amended_image_path "u1" "nodot").2.2 (by decide)).2 (by decide)⟩

/-- Helper: the `setattr` loop never touches the tag association set
(no payload item names it). -/
theorem applyScalars_tags (items : List AttrVal) (r : RecipeRow) :
    (applyScalars r items).tags = r.tags := by
  induction items generalizing r with
  | nil => rfl
  | cons a t ih =>
      rw [show applyScalars r (a :: t) = applyScalars (setattrRow r a) t from
        rfl, ih]
      cases a <;> rfl

/-- Helper: the `setattr` loop never touches the ingredient association
set. -/
theorem applyScalars_ingredients (items : List AttrVal) (r : RecipeRow) :
    (applyScalars r items).ingredients = r.ingredients := by
  induction items generalizing r with
  | nil => rfl
  | cons a t ih =>
      rw [show applyScalars r (a :: t) = applyScalars (setattrRow r a) t from
        rfl, ih]
      cases a <;> rfl

/-- Helper: running `get_or_create` again for the same (user, name) on
the table it produced finds the very row it returned, when
that table satisfies the uniqueness invariant. -/
theorem getOrCreate_stable (table : List NamedRow) (next next2 u : Nat)
    (nm : String) (hU2 : UniqTable (getOrCreate table next u nm).2.1) :
    getOrCreate (getOrCreate table next u nm).2.1 next2 u nm =
      ((getOrCreate table next u nm).1,
       (getOrCreate table next u nm).2.1, next2) := by
  have hmem := getOrCreate_row_mem table next u nm
  have hrow := getOrCreate_row table next u nm
  have hsome :
      ((getOrCreate table next u nm).2.1.find? (rowMatches u nm)).isSome := by
    rw [List.find?_isSome]
    exact ⟨_, hmem, (rowMatches_iff _ _ _).2 ⟨hrow.1, hrow.2⟩⟩
  obtain ⟨t2, ht2⟩ := Option.isSome_iff_exists.1 hsome
  have h2m := List.mem_of_find?_eq_some ht2
  have h2p := (rowMatches_iff u nm t2).1 (List.find?_some ht2)
  have heq : t2 = (getOrCreate table next u nm).1 :=
    uniq_match _ u nm t2 _ hU2 h2m hmem ⟨h2p.1, h2p.2⟩ ⟨hrow.1, hrow.2⟩
  rw [getOrCreate_found _ _ _ _ _ ht2, heq]

/-- C2: Recipe create is atomic: when the scalar insert fails the store
is returned exactly as it was — no Tag or Ingredient row is created and
no attachment happens, since the failure propagates before the
get-or-create loops run — and when it succeeds, the returned recipe is
persisted with all tags and ingredients from the payload resolved and
attached; there is no third outcome. -/
theorem C2_create_atomic (u : Nat) (p : CreatePayload) (store : Store) :
    (∀ e, (serializer_create u p store).1 = Except.error e →
      (serializer_create u p store).2 = store) ∧
    (∀ r : RecipeRow, (serializer_create u p store).1 = Except.ok r →
      r ∈ (serializer_create u p store).2.recipes ∧
      r.tags =
        (get_and_create_assoc u p.tags [] store.tags store.next_tag_id).1 ∧
      r.ingredients = (get_and_create_assoc u p.ingredients []
        store.ingredients store.next_ingredient_id).1 ∧
      (serializer_create u p store).2.tags =
        (get_and_create_assoc u p.tags [] store.tags store.next_tag_id).2.1 ∧
      (serializer_create u p store).2.ingredients =
        (get_and_create_assoc u p.ingredients [] store.ingredients
          store.next_ingredient_id).2.1) ∧
    ((∃ e, (serializer_create u p store).1 = Except.error e) ∨
      (∃ r, (serializer_create u p store).1 = Except.ok r)) := by
  refine ⟨?_, ?_, ?_⟩
  · intro e he
    by_cases hu : u ∈ store.users
    · simp only [serializer_create, recipeObjectsCreate, if_pos hu] at he
      exact absurd he (by simp)
    · simp only [serializer_create, recipeObjectsCreate, if_neg hu]
  · intro r hr
    by_cases hu : u ∈ store.users
    · simp only [serializer_create, recipeObjectsCreate, if_pos hu] at hr
      rw [Except.ok.injEq] at hr
      subst hr
      refine ⟨?_, ?_, ?_, ?_, ?_⟩ <;>
        simp [serializer_create, recipeObjectsCreate, if_pos hu, saveRecipe]
    · simp only [serializer_create, recipeObjectsCreate, if_neg hu] at hr
      exact absurd hr (by simp)
  · cases h : (serializer_create u p store).1 with
    | error e => exact Or.inl ⟨e, rfl⟩
    | ok r => exact Or.inr ⟨r, rfl⟩

/-- Witness for C2 at concrete inputs: creating against a store without
the user fails and leaves the store untouched, and creating for user 7
persists the recipe with its resolved tag attached. -/
theorem C2_create_atomic_witness :
    (serializer_create 1 ⟨["veg"], [], none⟩ ⟨[], [], [], [], 0, 0, 0⟩).2 =
      ⟨[], [], [], [], 0, 0, 0⟩ ∧
    (⟨0, 7, none, none, "", "", none, none, none, none, "", "", [0], [],
        none⟩ : RecipeRow) ∈
      (serializer_create 7 ⟨["veg"], [], none⟩
        ⟨[7], [], [], [], 0, 0, 0⟩).2.recipes :=
  ⟨(C2_create_atomic 1 ⟨["veg"], [], none⟩ ⟨[], [], [], [], 0, 0, 0⟩).1
      "FOREIGN KEY constraint failed" (by rfl),
   ((C2_create_atomic 7 ⟨["veg"], [], none⟩ ⟨[7], [], [], [], 0, 0, 0⟩).2.1
      ⟨0, 7, none, none, "", "", none, none, none, none, "", "", [0], [],
        none⟩ (by rfl)).1⟩

/-- C4: Recipe update distinguishes three cases for the tags key, and
independently for ingredients: an absent key leaves the association set
untouched, a present empty list leaves the recipe with zero
associations of that kind, and a present non-empty list replaces the
associations entirely by the entities resolved from the list (the set
is cleared first, so the result is exactly the resolution of the list
starting from the empty set). -/
theorem C4_update_assoc_cases (u : Nat) (p : UpdatePayload) (inst : RecipeRow)
    (store : Store) :
    (p.tags = none →
      (serializer_update u p inst store).1.tags = inst.tags) ∧
    (p.tags = some [] → (serializer_update u p inst store).1.tags = []) ∧
    (∀ l, p.tags = some l → (serializer_update u p inst store).1.tags =
      (get_and_create_assoc u l [] store.tags store.next_tag_id).1) ∧
    (p.ingredients = none →
      (serializer_update u p inst store).1.ingredients = inst.ingredients) ∧
    (p.ingredients = some [] →
      (serializer_update u p inst store).1.ingredients = []) ∧
    (∀ l, p.ingredients = some l →
      (serializer_update u p inst store).1.ingredients =
        (get_and_create_assoc u l [] store.ingredients
          store.next_ingredient_id).1) := by
  refine ⟨?_, ?_, ?_, ?_, ?_, ?_⟩
  · intro h
    simp only [serializer_update, h, applyScalars_tags]
  · intro h
    simp only [serializer_update, h, applyScalars_tags]
    rfl
  · intro l h
    simp only [serializer_update, h, applyScalars_tags]
  · intro h
    simp only [serializer_update, h, applyScalars_ingredients]
  · intro h
    simp only [serializer_update, h, applyScalars_ingredients]
    rfl
  · intro l h
    simp only [serializer_update, h, applyScalars_ingredients]

/-- Witness for C4 at concrete inputs: omitting tags keeps the existing
association, an empty list clears it, and a non-empty list replaces it
with the resolved entities; ingredients are untouched throughout. -/
theorem C4_update_assoc_cases_witness :
    (serializer_update 2 ⟨none, none, none⟩
      ⟨1, 2, none, none, "", "", none, none, none, none, "", "", [5], [9],
        none⟩ ⟨[2], [], [], [], 0, 0, 0⟩).1.tags = [5] ∧
    (serializer_update 2 ⟨some [], none, none⟩
      ⟨1, 2, none, none, "", "", none, none, none, none, "", "", [5], [9],
        none⟩ ⟨[2], [], [], [], 0, 0, 0⟩).1.tags = [] ∧
    (serializer_update 2 ⟨some ["a"], none, none⟩
      ⟨1, 2, none, none, "", "", none, none, none, none, "", "", [5], [9],
        none⟩ ⟨[2], [], [], [], 0, 0, 0⟩).1.tags =
      (get_and_create_assoc 2 ["a"] [] [] 0).1 ∧
    (serializer_update 2 ⟨some [], none, none⟩
      ⟨1, 2, none, none, "", "", none, none, none, none, "", "", [5], [9],
        none⟩ ⟨[2], [], [], [], 0, 0, 0⟩).1.ingredients = [9] :=
  ⟨(C4_update_assoc_cases 2 ⟨none, none, none⟩
      ⟨1, 2, none, none, "", "", none, none, none, none, "", "", [5], [9],
        none⟩ ⟨[2], [], [], [], 0, 0, 0⟩).1 rfl,
   (C4_update_assoc_cases 2 ⟨some [], none, none⟩
      ⟨1, 2, none, none, "", "", none, none, none, none, "", "", [5], [9],
        none⟩ ⟨[2], [], [], [], 0, 0, 0⟩).2.1 rfl,
   (C4_update_assoc_cases 2 ⟨some ["a"], none, none⟩
      ⟨1, 2, none, none, "", "", none, none, none, none, "", "", [5], [9],
        none⟩ ⟨[2], [], [], [], 0, 0, 0⟩).2.2.1 ["a"] rfl,
   (C4_update_assoc_cases 2 ⟨some [], none, none⟩
      ⟨1, 2, none, none, "", "", none, none, none, none, "", "", [5], [9],
        none⟩ ⟨[2], [], [], [], 0, 0, 0⟩).2.2.2.1 rfl⟩

/-- C9: The logical locale-projected fields are read-only method
fields, so the serializer's writable surface (`tags`, `ingredients`,
`image`) can never reach a locale-qualified column: every update leaves
all ten `_en`/`_ar` columns of the instance exactly as they were, and
every create produces a row whose locale columns are the model
defaults, whatever the payload contains. -/
theorem C9_locale_columns_read_only (u : Nat) (p : UpdatePayload)
    (cp : CreatePayload) (inst : RecipeRow) (store : Store) :
    ((serializer_update u p inst store).1.title_en = inst.title_en ∧
     (serializer_update u p inst store).1.title_ar = inst.title_ar ∧
     (serializer_update u p inst store).1.description_en =
       inst.description_en ∧
     (serializer_update u p inst store).1.description_ar =
       inst.description_ar ∧
     (serializer_update u p inst store).1.time_minutes_en =
       inst.time_minutes_en ∧
     (serializer_update u p inst store).1.time_minutes_ar =
       inst.time_minutes_ar ∧
     (serializer_update u p inst store).1.price_en = inst.price_en ∧
     (serializer_update u p inst store).1.price_ar = inst.price_ar ∧
     (serializer_update u p inst store).1.link_en = inst.link_en ∧
     (serializer_update u p inst store).1.link_ar = inst.link_ar) ∧
    (∀ r : RecipeRow, (serializer_create u cp store).1 = Except.ok r →
      r.title_en = none ∧ r.title_ar = none ∧
      r.description_en = "" ∧ r.description_ar = "" ∧
      r.time_minutes_en = none ∧ r.time_minutes_ar = none ∧
      r.price_en = none ∧ r.price_ar = none ∧
      r.link_en = "" ∧ r.link_ar = "") := by
  constructor
  · obtain ⟨pt, pi, pim⟩ := p
    cases pim <;>
      exact ⟨rfl, rfl, rfl, rfl, rfl, rfl, rfl, rfl, rfl, rfl⟩
  · intro r hr
    by_cases hu : u ∈ store.users
    · simp only [serializer_create, recipeObjectsCreate, if_pos hu] at hr
      rw [Except.ok.injEq] at hr
      subst hr
      exact ⟨rfl, rfl, rfl, rfl, rfl, rfl, rfl, rfl, rfl, rfl⟩
    · simp only [serializer_create, recipeObjectsCreate, if_neg hu] at hr
      exact absurd hr (by simp)

/-- Witness for C9 at concrete inputs: an update carrying an image
leaves a stored English title alone, and a freshly created recipe has a
`none` English title whatever the payload. -/
theorem C9_locale_columns_read_only_witness :
    (serializer_update 7 ⟨none, none, some (some "i.jpg")⟩
      ⟨1, 7, some "Tea", none, "", "", none, none, none, none, "", "", [],
        [], none⟩ ⟨[7], [], [], [], 0, 0, 0⟩).1.title_en = some "Tea" ∧
    (⟨0, 7, none, none, "", "", none, none, none, none, "", "", [0], [],
        none⟩ : RecipeRow).title_en = none :=
  ⟨(C9_locale_columns_read_only 7 ⟨none, none, some (some "i.jpg")⟩
      ⟨["veg"], [], none⟩
      ⟨1, 7, some "Tea", none, "", "", none, none, none, none, "", "", [],
        [], none⟩ ⟨[7], [], [], [], 0, 0, 0⟩).1.1,
   ((C9_locale_columns_read_only 7 ⟨none, none, some (some "i.jpg")⟩
      ⟨["veg"], [], none⟩
      ⟨1, 7, some "Tea", none, "", "", none, none, none, none, "", "", [],
        [], none⟩ ⟨[7], [], [], [], 0, 0, 0⟩).2
      ⟨0, 7, none, none, "", "", none, none, none, none, "", "", [0], [],
        none⟩ (by rfl)).1⟩

/-- C8: Recipes do not own Tag/Ingredient lifetime: two successive
creates by the same user with the same tag name both succeed, the second
creates no new tag row and both recipes end with the same attached tag
set (the shared underlying row); and deleting a recipe leaves the Tag
and Ingredient tables exactly as they were, removing only the deleted
recipe's own association memberships (every other recipe row
survives). -/
theorem C8_shared_tag_rows (u : Nat) (nm : String) (img1 img2 : Option String)
    (store : Store) (hu : u ∈ store.users) (hU : UniqTable store.tags) :
    (∃ r1 r2 : RecipeRow,
      (serializer_create u ⟨[nm], [], img1⟩ store).1 = Except.ok r1 ∧
      (serializer_create u ⟨[nm], [], img2⟩
        (serializer_create u ⟨[nm], [], img1⟩ store).2).1 = Except.ok r2 ∧
      r2.tags = r1.tags ∧
      (serializer_create u ⟨[nm], [], img2⟩
        (serializer_create u ⟨[nm], [], img1⟩ store).2).2.tags =
        (serializer_create u ⟨[nm], [], img1⟩ store).2.tags) ∧
    (∀ (s : Store) (rid : Nat),
      (deleteRecipe s rid).tags = s.tags ∧
      (deleteRecipe s rid).ingredients = s.ingredients ∧
      ∀ x ∈ s.recipes, x.id ≠ rid → x ∈ (deleteRecipe s rid).recipes) := by
  constructor
  · have hU2 := getOrCreate_uniq store.tags store.next_tag_id u nm hU
    simp only [serializer_create, recipeObjectsCreate, if_pos hu]
    refine ⟨_, _, rfl, rfl, ?_, ?_⟩
    · show m2mAdd []
          (getOrCreate (getOrCreate store.tags store.next_tag_id u nm).2.1
            (getOrCreate store.tags store.next_tag_id u nm).2.2 u nm).1.id =
        m2mAdd [] (getOrCreate store.tags store.next_tag_id u nm).1.id
      rw [getOrCreate_stable store.tags store.next_tag_id _ u nm hU2]
    · show (getOrCreate (getOrCreate store.tags store.next_tag_id u nm).2.1
            (getOrCreate store.tags store.next_tag_id u nm).2.2 u nm).2.1 =
        (getOrCreate store.tags store.next_tag_id u nm).2.1
      rw [getOrCreate_stable store.tags store.next_tag_id _ u nm hU2]
  · intro s rid
    refine ⟨rfl, rfl, ?_⟩
    intro x hx hne
    exact List.mem_filter.2 ⟨hx, by simpa using hne⟩

/-- Witness for C8 at concrete inputs: two creates for user 5 with tag
`"spicy"` against a fresh store both succeed, share the same attached
tag set, and the second leaves the tag table unchanged. -/
theorem C8_shared_tag_rows_witness :
    ∃ r1 r2 : RecipeRow,
      (serializer_create 5 ⟨["spicy"], [], none⟩
        ⟨[5], [], [], [], 0, 0, 0⟩).1 = Except.ok r1 ∧
      (serializer_create 5 ⟨["spicy"], [], none⟩
        (serializer_create 5 ⟨["spicy"], [], none⟩
          ⟨[5], [], [], [], 0, 0, 0⟩).2).1 = Except.ok r2 ∧
      r2.tags = r1.tags ∧
      (serializer_create 5 ⟨["spicy"], [], none⟩
        (serializer_create 5 ⟨["spicy"], [], none⟩
          ⟨[5], [], [], [], 0, 0, 0⟩).2).2.tags =
        (serializer_create 5 ⟨["spicy"], [], none⟩
          ⟨[5], [], [], [], 0, 0, 0⟩).2.tags :=
  (C8_shared_tag_rows 5 "spicy" none none ⟨[5], [], [], [], 0, 0, 0⟩
    (by decide) List.Pairwise.nil).1
